import Mathlib

/-!
Verification of the `atomic-waitgroup` library (`src/lib.rs`): a counting
synchronization primitive where producers increment/decrement a shared
counter and a single consumer suspends until the counter drops to a
threshold.

The shared state `WaitGroupInner { left : AtomicI64, waiting : AtomicI64,
waker : Mutex<Option<Waker>>, waker_id : AtomicU64 }` is embedded as the
structure `WGState` with `left waiting : Int`, the waker slot as an
`Option Nat` (wakers are opaque tokens), and `waker_id : Nat`.  Panics are
modelled as explicit flags on the operation results, and the waker
invocation performed by `done` is reported as an observation (`woke`)
rather than an effect, since waking mutates no field of the shared state.
-/

/-- Shallow embedding of `WaitGroupInner` (src/lib.rs lines 198-203).
`left` and `waiting` are `i64` atomics (embedded as `Int`); the waker
slot `Mutex<Option<Waker>>` is an `Option Nat` holding an opaque waker
token; `waker_id` is an `AtomicU64` (embedded as `Nat`). -/
structure WGState where
  left : Int
  waiting : Int
  waker : Option Nat
  waker_id : Nat
  deriving Repr, DecidableEq

namespace WaitGroupInner

/-- `WaitGroupInner::new` (lib.rs 206-214): counter zero, `waiting` at the
`-1` "none" sentinel, empty waker slot, generation counter zero. -/
def new : WGState :=
  { left := 0, waiting := -1, waker := none, waker_id := 0 }

/-- Result of `WaitGroupInner::done`: the post-call shared state, whether
the call panicked, and which waker token (if any) was invoked via
`wake_by_ref`. -/
structure DoneResult where
  state : WGState
  panicked : Bool
  woke : Option Nat
  deriving Repr, DecidableEq

/-- `WaitGroupInner::done(count)` (lib.rs 215-232):
`left.fetch_sub(count)` (applied unconditionally), load `waiting`,
panic if the post-decrement value is negative, return if nobody waits,
otherwise if `left <= waiting` invoke the registered waker by reference
without clearing the slot. -/
def done (s : WGState) (count : Int) : DoneResult :=
  let left := s.left - count
  let s' : WGState := { s with left := left }
  let waiting := s'.waiting
  if left < 0 then
    { state := s', panicked := true, woke := none }
  else if waiting < 0 then
    { state := s', panicked := false, woke := none }
  else if left ≤ waiting then
    { state := s', panicked := false, woke := s'.waker }
  else
    { state := s', panicked := false, woke := none }

/-- Result of `WaitGroupInner::set_waker`: post-call state, panic flag,
and the returned waker id. -/
structure SetWakerResult where
  state : WGState
  panicked : Bool
  waker_id : Nat
  deriving Repr, DecidableEq

/-- `WaitGroupInner::set_waker(waker, target)` (lib.rs 235-248):
`waker_id.fetch_add(1) + 1`, replace the waker slot, swap `waiting` to
`target`, and panic if the old `waiting` value was already set (`>= 0`) —
a second concurrent waiter. All three writes precede the panic check,
exactly as in the source. -/
def set_waker (s : WGState) (waker : Nat) (target : Nat) : SetWakerResult :=
  let waker_id := s.waker_id + 1
  let s' : WGState := { s with waker_id := waker_id, waker := some waker }
  let old_target := s'.waiting
  let s'' : WGState := { s' with waiting := (target : Int) }
  if 0 ≤ old_target then
    { state := s'', panicked := true, waker_id := waker_id }
  else
    { state := s'', panicked := false, waker_id := waker_id }

/-- `WaitGroupInner::cancel_wait(waker_id)` (lib.rs 250-258): only when
the stored generation equals the argument, reset `waiting` to the `-1`
sentinel and take the waker out of the slot; otherwise leave everything
untouched. -/
def cancel_wait (s : WGState) (waker_id : Nat) : WGState :=
  if s.waker_id = waker_id then
    { s with waiting := -1, waker := none }
  else
    s

end WaitGroupInner

namespace WaitGroup

/-- `WaitGroup::left` (lib.rs 87-95): load the counter, panic when
negative, otherwise return it as a `usize`. -/
def leftQuery (s : WGState) : Except String Nat :=
  if s.left < 0 then
    .error "WaitGroup.left < 0"
  else
    .ok s.left.toNat

/-- `WaitGroup::add(i)` (lib.rs 101-104): `left.fetch_add(i)`. -/
def add (s : WGState) (i : Nat) : WGState :=
  { s with left := s.left + (i : Int) }

/-- `WaitGroup::add_guard` (lib.rs 126-132): `left.fetch_add(1)`; the
returned `WaitGroupGuard` holds a reference to the shared state and its
`Drop` impl (lib.rs 191-196) performs `done(1)` exactly once. -/
def add_guard (s : WGState) : WGState :=
  { s with left := s.left + 1 }

end WaitGroup

/-- The private fields of a `WaitGroupFuture` that evolve across polls:
the wait target and the locally recorded generation id (`0` meaning "not
yet registered"). -/
structure FutState where
  target : Nat
  waker_id : Nat
  deriving Repr, DecidableEq

namespace WaitGroupFuture

/-- `WaitGroupFuture::_clear` (lib.rs 279-286): when a generation was
recorded, call `cancel_wait` on it and reset the local id to `0`. -/
def clear (wg : WGState) (f : FutState) : WGState × FutState :=
  if f.waker_id = 0 then
    (wg, f)
  else
    (WaitGroupInner.cancel_wait wg f.waker_id, { f with waker_id := 0 })

/-- `WaitGroupFuture::_poll` (lib.rs 268-277): load `left`; when it is at
or below the target, `_clear` and report completion. -/
def pollCheck (wg : WGState) (f : FutState) : Bool × WGState × FutState :=
  let cur := wg.left
  if cur ≤ (f.target : Int) then
    let (wg', f') := clear wg f
    (true, wg', f')
  else
    (false, wg, f)

/-- Outcome of one call to `WaitGroupFuture::poll`. -/
inductive PollOut
  | ready
  | pending
  | panicked
  deriving Repr, DecidableEq

/-- `WaitGroupFuture::poll` (lib.rs 299-311): when not yet registered,
first `_poll`, then `set_waker` (recording the returned generation), then
`_poll` again; when already registered, a single `_poll`. A `set_waker`
panic propagates before the local `waker_id` assignment happens. -/
def poll (wg : WGState) (f : FutState) (w : Nat) : PollOut × WGState × FutState :=
  if f.waker_id = 0 then
    match pollCheck wg f with
    | (true, wg', f') => (.ready, wg', f')
    | (false, wg', f') =>
      let r := WaitGroupInner.set_waker wg' w f'.target
      if r.panicked then
        (.panicked, r.state, f')
      else
        let f2 : FutState := { f' with waker_id := r.waker_id }
        match pollCheck r.state f2 with
        | (true, wg2, f3) => (.ready, wg2, f3)
        | (false, wg2, f3) => (.pending, wg2, f3)
  else
    match pollCheck wg f with
    | (true, wg', f') => (.ready, wg', f')
    | (false, wg', f') => (.pending, wg', f')

end WaitGroupFuture

namespace WaitGroup

/-- How a call to `wait_to` begins, executed sequentially up to the first
suspension point: `immediate` — the fast check `left <= target` passed
and `false` is returned with no future ever constructed; `earlyReady` —
the future completed on its very first poll, so `true` is returned yet no
suspension occurred; `suspended` — the first poll returned `Pending`, the
task suspends, and `wait_to` will return `true`; `panicked` — the first
poll panicked in `set_waker`. -/
inductive WaitToStart
  | immediate
  | earlyReady (wg : WGState) (f : FutState)
  | suspended (wg : WGState) (f : FutState)
  | panicked (wg : WGState)
  deriving Repr, DecidableEq

/-- `WaitGroup::wait_to(target)` (lib.rs 145-158), its synchronous
prefix: load `left`; if `left <= target` return `false` at once;
otherwise build `WaitGroupFuture { target, waker_id: 0 }` and poll it
once (the first poll the executor performs on `.await`). -/
def wait_to_start (wg : WGState) (target : Nat) (w : Nat) : WaitToStart :=
  if wg.left ≤ (target : Int) then
    .immediate
  else
    match WaitGroupFuture.poll wg { target := target, waker_id := 0 } w with
    | (.ready, wg', f') => .earlyReady wg' f'
    | (.pending, wg', f') => .suspended wg' f'
    | (.panicked, wg', _) => .panicked wg'

end WaitGroup

/-- The producer/consumer operations of claim C2: `add(n)`,
`add_guard()`, `done()`, `done_many(n)`, and the release of a
`WaitGroupGuard` (its `Drop` impl, which performs `done(1)`). -/
inductive WGOp
  | add (n : Nat)
  | add_guard
  | done
  | done_many (n : Nat)
  | guard_release
  deriving Repr, DecidableEq

/-- Run one operation; `none` models a panic (a decrement that drove the
counter negative). -/
def runOp (s : WGState) (op : WGOp) : Option WGState :=
  match op with
  | .add n => some (WaitGroup.add s n)
  | .add_guard => some (WaitGroup.add_guard s)
  | .done =>
    let r := WaitGroupInner.done s 1
    if r.panicked then none else some r.state
  | .done_many n =>
    let r := WaitGroupInner.done s (n : Int)
    if r.panicked then none else some r.state
  | .guard_release =>
    let r := WaitGroupInner.done s 1
    if r.panicked then none else some r.state

/-- Run a sequence of operations, stopping at the first panic. -/
def runOps (s : WGState) : List WGOp → Option WGState
  | [] => some s
  | op :: rest => (runOp s op).bind (fun s' => runOps s' rest)

/-- The net sum of a sequence of operations: total increments minus total
decrements. -/
def netDelta : List WGOp → Int
  | [] => 0
  | .add n :: rest => (n : Int) + netDelta rest
  | .add_guard :: rest => 1 + netDelta rest
  | .done :: rest => -1 + netDelta rest
  | .done_many n :: rest => -(n : Int) + netDelta rest
  | .guard_release :: rest => -1 + netDelta rest

/-!
Interleaving model for the decrement/registration race (claim C9).

The comment block at lib.rs 60-71 pins the order of the four atomic
accesses that the double-check pattern relies on.  A producer running
`done` performs, in program order, (1) `left.fetch_sub` and (2) the load
of `waiting`; the waiter's poll performs, in program order, (1) the
`waiting` swap inside `set_waker` and (2) the re-check load of `left` in
the second `_poll`.  Under `SeqCst` these four accesses are totally
ordered, so an execution is one of the six merges of the two program
orders.
-/

/-- The four atomic accesses of the race window: the producer's
subtraction and `waiting` load (from `done`), and the waiter's `waiting`
store (from `set_waker`) and `left` re-check load (from the second
`_poll`). -/
inductive RaceEv
  | dSub
  | dLoadWaiting
  | wStoreWaiting
  | wLoadLeft
  deriving Repr, DecidableEq

/-- Shared memory plus the two observations: what the producer's `done`
read from `waiting`, and what the waiter's re-check read from `left`. -/
structure RaceState where
  left : Int
  waiting : Int
  dObs : Option Int
  wObs : Option Int
  deriving Repr, DecidableEq

/-- Effect of one atomic access on the shared memory / observations. -/
def raceStep (count : Int) (target : Nat) (s : RaceState) : RaceEv → RaceState
  | .dSub => { s with left := s.left - count }
  | .dLoadWaiting => { s with dObs := some s.waiting }
  | .wStoreWaiting => { s with waiting := (target : Int) }
  | .wLoadLeft => { s with wObs := some s.left }

/-- Run a sequence of atomic accesses. -/
def raceRun (count : Int) (target : Nat) (s : RaceState) : List RaceEv → RaceState
  | [] => s
  | e :: rest => raceRun count target (raceStep count target s e) rest

/-- All interleavings of the producer's program order
`[dSub, dLoadWaiting]` with the waiter's `[wStoreWaiting, wLoadLeft]`:
the six merges of two two-element sequences. -/
def raceInterleavings : List (List RaceEv) :=
  [[.dSub, .dLoadWaiting, .wStoreWaiting, .wLoadLeft],
   [.dSub, .wStoreWaiting, .dLoadWaiting, .wLoadLeft],
   [.dSub, .wStoreWaiting, .wLoadLeft, .dLoadWaiting],
   [.wStoreWaiting, .dSub, .dLoadWaiting, .wLoadLeft],
   [.wStoreWaiting, .dSub, .wLoadLeft, .dLoadWaiting],
   [.wStoreWaiting, .wLoadLeft, .dSub, .dLoadWaiting]]

/-! ### Helper lemmas about `done` and the operation runner -/

lemma done_state_eq (s : WGState) (c : Int) :
    (WaitGroupInner.done s c).state = { s with left := s.left - c } := by
  simp only [WaitGroupInner.done]
  split
  · rfl
  · split
    · rfl
    · split <;> rfl

lemma done_panicked_iff (s : WGState) (c : Int) :
    (WaitGroupInner.done s c).panicked = true ↔ s.left - c < 0 := by
  simp only [WaitGroupInner.done]
  split <;> rename_i h
  · simpa using h
  · split
    · simpa using h
    · split <;> simpa using h

/-- Signed counter change performed by one operation. -/
def opDelta : WGOp → Int
  | .add n => (n : Int)
  | .add_guard => 1
  | .done => -1
  | .done_many n => -(n : Int)
  | .guard_release => -1

lemma runOp_cases (s : WGState) (op : WGOp) :
    runOp s op = some { s with left := s.left + opDelta op } ∨
      (runOp s op = none ∧ s.left + opDelta op < 0) := by
  cases op <;>
    simp only [runOp, opDelta, WaitGroup.add, WaitGroup.add_guard]
  · left; trivial
  · left; trivial
  · by_cases h : s.left - 1 < 0
    · right
      rw [if_pos (by rw [done_panicked_iff]; exact h)]
      exact ⟨rfl, by omega⟩
    · left
      rw [if_neg (by rw [done_panicked_iff]; exact h), done_state_eq]
      have : s.left - 1 = s.left + -1 := by ring
      rw [this]
  · rename_i n
    by_cases h : s.left - (n : Int) < 0
    · right
      rw [if_pos (by rw [done_panicked_iff]; exact h)]
      exact ⟨rfl, by omega⟩
    · left
      rw [if_neg (by rw [done_panicked_iff]; exact h), done_state_eq]
      have : s.left - (n : Int) = s.left + -(n : Int) := by ring
      rw [this]
  · by_cases h : s.left - 1 < 0
    · right
      rw [if_pos (by rw [done_panicked_iff]; exact h)]
      exact ⟨rfl, by omega⟩
    · left
      rw [if_neg (by rw [done_panicked_iff]; exact h), done_state_eq]
      have : s.left - 1 = s.left + -1 := by ring
      rw [this]

lemma runOps_append (s : WGState) (p q : List WGOp) :
    runOps s (p ++ q) = (runOps s p).bind (fun s' => runOps s' q) := by
  induction p generalizing s with
  | nil => rfl
  | cons op rest ih =>
    simp only [List.cons_append, runOps]
    cases runOp s op with
    | none => rfl
    | some s' => exact ih s'

lemma runOps_left (ops : List WGOp) (s s' : WGState)
    (h : runOps s ops = some s') : s'.left = s.left + netDelta ops := by
  induction ops generalizing s with
  | nil =>
    have : s = s' := Option.some.inj h
    rw [← this]
    simp [netDelta]
  | cons op rest ih =>
    rcases runOp_cases s op with hop | ⟨hop, _⟩
    · have h2 : runOps { s with left := s.left + opDelta op } rest = some s' := by
        have := h
        simp only [runOps] at this
        rw [hop] at this
        exact this
      have := ih _ h2
      rw [this]
      cases op <;> simp [netDelta, opDelta] <;> ring
    · exfalso
      have := h
      simp only [runOps] at this
      rw [hop] at this
      exact Option.noConfusion this

lemma runOp_nonneg (s t : WGState) (op : WGOp)
    (h : runOp s op = some t) (h0 : 0 ≤ s.left) : 0 ≤ t.left := by
  cases op
  case add n =>
    simp only [runOp, WaitGroup.add] at h
    rw [← Option.some.inj h]
    positivity
  case add_guard =>
    simp only [runOp, WaitGroup.add_guard] at h
    rw [← Option.some.inj h]
    positivity
  all_goals
    simp only [runOp] at h
    split at h
    · exact Option.noConfusion h
    · rename_i hcond
      rw [done_panicked_iff] at hcond
      rw [← Option.some.inj h, done_state_eq]
      simp only
      omega

lemma runOps_nonneg (ops : List WGOp) (s s' : WGState)
    (h : runOps s ops = some s') (h0 : 0 ≤ s.left) : 0 ≤ s'.left := by
  induction ops generalizing s with
  | nil =>
    have : s = s' := Option.some.inj h
    rw [← this]; exact h0
  | cons op rest ih =>
    simp only [runOps] at h
    cases hop : runOp s op with
    | none =>
      rw [hop] at h
      exact Option.noConfusion h
    | some t =>
      rw [hop] at h
      exact ih _ h (runOp_nonneg s t op hop h0)

/-! ### Claims C3, C4, C5, C7, C8, C10 — direct properties of the
shared-state operations -/

/-- C3: a decrement (`done`/`done_many`, both entering
`WaitGroupInner::done`) panics exactly when the post-decrement counter
value is negative, and the query `left()` panics exactly when it observes
a negative counter; a decrement whose post-decrement value is
non-negative never panics. -/
theorem done_and_left_panic_iff_negative (s : WGState) (c : Int) :
    ((WaitGroupInner.done s c).panicked = true ↔ s.left - c < 0) ∧
    ((∃ e, WaitGroup.leftQuery s = .error e) ↔ s.left < 0) := by
  refine ⟨done_panicked_iff s c, ?_⟩
  unfold WaitGroup.leftQuery
  split <;> rename_i h
  · simpa using h
  · constructor
    · rintro ⟨e, he⟩
      exact Except.noConfusion he
    · intro hc
      exact absurd hc h

/-- C4: `set_waker` panics exactly when the `waiting` threshold is
already set (non-negative, i.e. another wait attempt is outstanding);
when no wait is outstanding (`waiting` at the `-1` sentinel) the
registration succeeds without failure. -/
theorem set_waker_panics_iff_concurrent_wait (s : WGState) (w t : Nat) :
    (WaitGroupInner.set_waker s w t).panicked = true ↔ 0 ≤ s.waiting := by
  simp only [WaitGroupInner.set_waker]
  split <;> rename_i h
  · simpa using h
  · simpa using h

/-- C5: `cancel_wait(g)` clears `waiting` back to the `-1` sentinel and
empties the waker slot exactly when the stored generation id equals `g`
(leaving `left` and the generation counter untouched); when the stored
generation differs it is a complete no-op. -/
theorem cancel_wait_generation_guard (s : WGState) (g : Nat) :
    (s.waker_id = g →
      WaitGroupInner.cancel_wait s g =
        { left := s.left, waiting := -1, waker := none, waker_id := s.waker_id }) ∧
    (s.waker_id ≠ g → WaitGroupInner.cancel_wait s g = s) := by
  constructor
  · intro h
    unfold WaitGroupInner.cancel_wait
    rw [if_pos h]
  · intro h
    unfold WaitGroupInner.cancel_wait
    rw [if_neg h]

/-- Witness for C5 at concrete inputs: a matching generation clears the
registration, a mismatching one changes nothing. -/
theorem cancel_wait_generation_guard_witness :
    WaitGroupInner.cancel_wait ⟨0, 5, some 3, 4⟩ 4 = ⟨0, -1, none, 4⟩ ∧
    WaitGroupInner.cancel_wait ⟨0, 5, some 3, 4⟩ 9 = ⟨0, 5, some 3, 4⟩ :=
  ⟨(cancel_wait_generation_guard ⟨0, 5, some 3, 4⟩ 4).1 rfl,
   (cancel_wait_generation_guard ⟨0, 5, some 3, 4⟩ 9).2 (by decide)⟩

/-- C7: when `done` finds a registered waiter (`waiting ≥ 0`, waker slot
occupied) and the post-decrement value is non-negative and at or below
the threshold, it invokes the registered waker and leaves `waiting`, the
waker slot and the generation counter all unchanged. -/
theorem done_wakes_without_clearing (s : WGState) (c : Int) (w : Nat)
    (h1 : 0 ≤ s.waiting) (h2 : s.waker = some w)
    (h3 : 0 ≤ s.left - c) (h4 : s.left - c ≤ s.waiting) :
    (WaitGroupInner.done s c).woke = some w ∧
    (WaitGroupInner.done s c).panicked = false ∧
    (WaitGroupInner.done s c).state.waiting = s.waiting ∧
    (WaitGroupInner.done s c).state.waker = s.waker ∧
    (WaitGroupInner.done s c).state.waker_id = s.waker_id := by
  unfold WaitGroupInner.done
  simp only
  rw [if_neg (by omega), if_neg (by omega), if_pos h4]
  exact ⟨h2, rfl, rfl, rfl, rfl⟩

/-- Witness for C7: counter 2, threshold 1, registered waker 7,
decrement by 1. -/
theorem done_wakes_without_clearing_witness :
    (WaitGroupInner.done ⟨2, 1, some 7, 3⟩ 1).woke = some 7 ∧
    (WaitGroupInner.done ⟨2, 1, some 7, 3⟩ 1).panicked = false ∧
    (WaitGroupInner.done ⟨2, 1, some 7, 3⟩ 1).state.waiting = (⟨2, 1, some 7, 3⟩ : WGState).waiting ∧
    (WaitGroupInner.done ⟨2, 1, some 7, 3⟩ 1).state.waker = (⟨2, 1, some 7, 3⟩ : WGState).waker ∧
    (WaitGroupInner.done ⟨2, 1, some 7, 3⟩ 1).state.waker_id = (⟨2, 1, some 7, 3⟩ : WGState).waker_id :=
  done_wakes_without_clearing ⟨2, 1, some 7, 3⟩ 1 7
    (by decide) rfl (by decide) (by decide)

/-- C8: a successful registration increments the generation counter by
exactly one, returns that new generation id, stores the new waker
(overwriting any previous one) and sets `waiting` to the requested
target; moreover no other operation (`done`, `cancel_wait`, `add`,
`add_guard`) ever changes the generation counter, so generation ids are
strictly increasing across successive registrations. -/
theorem set_waker_increments_generation (s : WGState) (w t : Nat)
    (h : s.waiting < 0) :
    (WaitGroupInner.set_waker s w t).panicked = false ∧
    (WaitGroupInner.set_waker s w t).state.waker_id = s.waker_id + 1 ∧
    (WaitGroupInner.set_waker s w t).waker_id = s.waker_id + 1 ∧
    (WaitGroupInner.set_waker s w t).state.waker = some w ∧
    (WaitGroupInner.set_waker s w t).state.waiting = (t : Int) ∧
    s.waker_id < (WaitGroupInner.set_waker s w t).waker_id ∧
    (∀ (u : WGState) (c : Int), (WaitGroupInner.done u c).state.waker_id = u.waker_id) ∧
    (∀ (u : WGState) (g : Nat), (WaitGroupInner.cancel_wait u g).waker_id = u.waker_id) ∧
    (∀ (u : WGState) (n : Nat),
      (WaitGroup.add u n).waker_id = u.waker_id ∧
      (WaitGroup.add_guard u).waker_id = u.waker_id) := by
  unfold WaitGroupInner.set_waker
  simp only
  rw [if_neg (by omega)]
  refine ⟨rfl, rfl, rfl, rfl, rfl, Nat.lt_succ_self _, ?_, ?_, ?_⟩
  · intro u c
    rw [done_state_eq]
  · intro u g
    unfold WaitGroupInner.cancel_wait
    split <;> rfl
  · intro u n
    exact ⟨rfl, rfl⟩

/-- Witness for C8: registering waker 9 with target 3 on an idle state
with generation 2 yields generation 3. -/
theorem set_waker_increments_generation_witness :
    (WaitGroupInner.set_waker ⟨5, -1, none, 2⟩ 9 3).panicked = false ∧
    (WaitGroupInner.set_waker ⟨5, -1, none, 2⟩ 9 3).state.waker_id = 3 ∧
    (WaitGroupInner.set_waker ⟨5, -1, none, 2⟩ 9 3).waker_id = 3 ∧
    (WaitGroupInner.set_waker ⟨5, -1, none, 2⟩ 9 3).state.waker = some 9 ∧
    (WaitGroupInner.set_waker ⟨5, -1, none, 2⟩ 9 3).state.waiting = (3 : Int) ∧
    (⟨5, -1, none, 2⟩ : WGState).waker_id < (WaitGroupInner.set_waker ⟨5, -1, none, 2⟩ 9 3).waker_id ∧
    (∀ (u : WGState) (c : Int), (WaitGroupInner.done u c).state.waker_id = u.waker_id) ∧
    (∀ (u : WGState) (g : Nat), (WaitGroupInner.cancel_wait u g).waker_id = u.waker_id) ∧
    (∀ (u : WGState) (n : Nat),
      (WaitGroup.add u n).waker_id = u.waker_id ∧
      (WaitGroup.add_guard u).waker_id = u.waker_id) :=
  set_waker_increments_generation ⟨5, -1, none, 2⟩ 9 3 (by decide)

/-- C10: when `done` panics because the post-decrement value is
negative, the subtraction has already been applied and is not rolled
back — the state at the failure holds the negative value — and no waker
is invoked on that path. -/
theorem done_underflow_keeps_subtraction (s : WGState) (c : Int)
    (h : s.left - c < 0) :
    (WaitGroupInner.done s c).panicked = true ∧
    (WaitGroupInner.done s c).state.left = s.left - c ∧
    (WaitGroupInner.done s c).state.left < 0 ∧
    (WaitGroupInner.done s c).woke = none := by
  unfold WaitGroupInner.done
  simp only
  rw [if_pos h]
  exact ⟨rfl, rfl, h, rfl⟩

/-- Witness for C10: decrementing 2 from a counter of 1 panics with the
counter left at -1 and no wake. -/
theorem done_underflow_keeps_subtraction_witness :
    (WaitGroupInner.done ⟨1, -1, none, 0⟩ 2).panicked = true ∧
    (WaitGroupInner.done ⟨1, -1, none, 0⟩ 2).state.left = (1 : Int) - 2 ∧
    (WaitGroupInner.done ⟨1, -1, none, 0⟩ 2).state.left < 0 ∧
    (WaitGroupInner.done ⟨1, -1, none, 0⟩ 2).woke = none :=
  done_underflow_keeps_subtraction ⟨1, -1, none, 0⟩ 2 (by decide)

/-! ### Claim C2 — `left()` returns the net sum -/

/-- C2: starting from the freshly constructed state (counter zero), any
sequence of `add` / `add_guard` / `done` / `done_many` / guard-release
operations that completes without a panic leaves, at every observation
point (every prefix `p` of the sequence), the counter equal to the net
sum of the prefix, and `left()` returns that net sum without failing. -/
theorem left_equals_net_sum (ops p q : List WGOp) (s : WGState)
    (hsplit : ops = p ++ q)
    (hrun : runOps WaitGroupInner.new ops = some s) :
    ∃ sp, runOps WaitGroupInner.new p = some sp ∧
      sp.left = netDelta p ∧
      WaitGroup.leftQuery sp = .ok (netDelta p).toNat := by
  subst hsplit
  rw [runOps_append] at hrun
  rcases Option.bind_eq_some.mp hrun with ⟨sp, hp, _⟩
  refine ⟨sp, hp, ?_, ?_⟩
  · have := runOps_left p WaitGroupInner.new sp hp
    simpa [WaitGroupInner.new] using this
  · have hleft := runOps_left p WaitGroupInner.new sp hp
    have hnn := runOps_nonneg p WaitGroupInner.new sp hp (by decide)
    unfold WaitGroup.leftQuery
    rw [if_neg (by omega)]
    have : sp.left = netDelta p := by
      simpa [WaitGroupInner.new] using hleft
    rw [this]

/-- Witness for C2: the sequence `add 2; done; add_guard; guard-release`
observed after the prefix `add 2; done` shows `left() = 1`. -/
theorem left_equals_net_sum_witness :
    ∃ sp, runOps WaitGroupInner.new [WGOp.add 2, WGOp.done] = some sp ∧
      sp.left = netDelta [WGOp.add 2, WGOp.done] ∧
      WaitGroup.leftQuery sp = .ok (netDelta [WGOp.add 2, WGOp.done]).toNat :=
  left_equals_net_sum
    [WGOp.add 2, WGOp.done, WGOp.add_guard, WGOp.guard_release]
    [WGOp.add 2, WGOp.done] [WGOp.add_guard, WGOp.guard_release]
    ⟨1, -1, none, 0⟩ rfl (by decide)

/-! ### Claim C6 — guards decrement exactly once -/

lemma runOps_replicate_add_guard (N : Nat) (s : WGState) :
    runOps s (List.replicate N WGOp.add_guard) =
      some { s with left := s.left + (N : Int) } := by
  induction N generalizing s with
  | zero => simp [runOps]
  | succ n ih =>
    rw [List.replicate_succ]
    show runOps { s with left := s.left + 1 } (List.replicate n WGOp.add_guard) = _
    rw [ih]
    congr 1
    simp only [WGState.mk.injEq, and_true, true_and]
    push_cast
    omega

lemma runOps_replicate_release (N : Nat) (s : WGState) (h : 0 ≤ s.left - (N : Int)) :
    runOps s (List.replicate N WGOp.guard_release) =
      some { s with left := s.left - (N : Int) } := by
  induction N generalizing s with
  | zero => simp [runOps]
  | succ n ih =>
    rw [List.replicate_succ]
    simp only [runOps, runOp]
    rw [if_neg (by rw [done_panicked_iff]; push_cast at h ⊢; omega), done_state_eq]
    show runOps { s with left := s.left - 1 } (List.replicate n WGOp.guard_release) = _
    rw [ih { s with left := s.left - 1 } (by simp only; push_cast at h ⊢; omega)]
    congr 1
    simp only [WGState.mk.injEq, and_true, true_and]
    push_cast
    omega

/-- C6: `add_guard` adds exactly one to the counter; releasing a guard
(its `Drop` impl) performs exactly one decrement of one and never panics
while the counter is positive; consequently creating `N` guards and then
releasing all `N` of them performs exactly `N` decrements, returning the
shared state to exactly where it started. -/
theorem guards_decrement_exactly_once (s : WGState) (N : Nat) (h : 0 ≤ s.left) :
    (WaitGroup.add_guard s).left = s.left + 1 ∧
    (∀ g : WGState, 0 ≤ g.left - 1 →
      (WaitGroupInner.done g 1).panicked = false ∧
      (WaitGroupInner.done g 1).state.left = g.left - 1) ∧
    runOps s (List.replicate N WGOp.add_guard ++ List.replicate N WGOp.guard_release) =
      some s := by
  refine ⟨rfl, ?_, ?_⟩
  · intro g hg
    constructor
    · rw [← Bool.not_eq_true, done_panicked_iff]
      omega
    · rw [done_state_eq]
  · rw [runOps_append, runOps_replicate_add_guard]
    show runOps { s with left := s.left + (N : Int) } _ = _
    rw [runOps_replicate_release N _ (by simp only; omega)]
    congr 1
    simp only [WGState.mk.injEq, and_true, true_and]
    ring_nf

/-- Witness for C6: three guards created then released on a counter of 2
bring it back to 2. -/
theorem guards_decrement_exactly_once_witness :
    (WaitGroup.add_guard ⟨2, -1, none, 0⟩).left = (⟨2, -1, none, 0⟩ : WGState).left + 1 ∧
    (∀ g : WGState, 0 ≤ g.left - 1 →
      (WaitGroupInner.done g 1).panicked = false ∧
      (WaitGroupInner.done g 1).state.left = g.left - 1) ∧
    runOps ⟨2, -1, none, 0⟩
      (List.replicate 3 WGOp.add_guard ++ List.replicate 3 WGOp.guard_release) =
      some ⟨2, -1, none, 0⟩ :=
  guards_decrement_exactly_once ⟨2, -1, none, 0⟩ 3 (by decide)

/-! ### Claim C1 — `wait_to` return value vs. suspension -/

lemma poll_first_unregistered (wg : WGState) (target w : Nat)
    (hns : ¬ wg.left ≤ (target : Int)) (hw : wg.waiting < 0) :
    WaitGroupFuture.poll wg { target := target, waker_id := 0 } w =
      (.pending,
       { left := wg.left, waiting := (target : Int), waker := some w,
         waker_id := wg.waker_id + 1 },
       { target := target, waker_id := wg.waker_id + 1 }) := by
  have hw' : ¬ (0 : Int) ≤ wg.waiting := by omega
  simp [WaitGroupFuture.poll, WaitGroupFuture.pollCheck,
    WaitGroupInner.set_waker, hns, hw']

/-- C1: under valid usage (no other registered waiter), `wait_to(target)`
returns `false` immediately — constructing no future and never suspending
— exactly when the counter observed at call time satisfies
`left <= target`; otherwise the first poll of the constructed future
registers a waker and returns `Pending`, i.e. the caller actually
suspends, and `wait_to` returns `true`; the "completed on first poll
without suspending" outcome is impossible in this sequential execution,
so `true` is returned exactly when suspension occurred. -/
theorem wait_to_false_iff_already_satisfied (wg : WGState) (target w : Nat)
    (h : wg.waiting < 0) :
    (WaitGroup.wait_to_start wg target w = .immediate ↔ wg.left ≤ (target : Int)) ∧
    ((target : Int) < wg.left →
      WaitGroup.wait_to_start wg target w =
        .suspended
          { left := wg.left, waiting := (target : Int), waker := some w,
            waker_id := wg.waker_id + 1 }
          { target := target, waker_id := wg.waker_id + 1 }) ∧
    (∀ wg2 f2, WaitGroup.wait_to_start wg target w ≠ .earlyReady wg2 f2) := by
  by_cases hc : wg.left ≤ (target : Int)
  · have himm : WaitGroup.wait_to_start wg target w = .immediate := by
      unfold WaitGroup.wait_to_start
      rw [if_pos hc]
    refine ⟨by simp [himm, hc], fun hgt => absurd hc (by omega), ?_⟩
    intro wg2 f2
    rw [himm]
    exact fun hcon => WaitGroup.WaitToStart.noConfusion hcon
  · have hsusp : WaitGroup.wait_to_start wg target w =
        .suspended
          { left := wg.left, waiting := (target : Int), waker := some w,
            waker_id := wg.waker_id + 1 }
          { target := target, waker_id := wg.waker_id + 1 } := by
      unfold WaitGroup.wait_to_start
      rw [if_neg hc, poll_first_unregistered wg target w hc h]
    refine ⟨by simp [hsusp, hc], fun _ => hsusp, ?_⟩
    intro wg2 f2
    rw [hsusp]
    exact fun hcon => WaitGroup.WaitToStart.noConfusion hcon

/-- Witness for C1: with counter 2 and `waiting` unset, `wait_to 0`
suspends after registering generation 1, and `wait_to` on a satisfied
counter would return `.immediate`. -/
theorem wait_to_false_iff_already_satisfied_witness :
    (WaitGroup.wait_to_start ⟨2, -1, none, 0⟩ 0 5 = .immediate ↔ (2 : Int) ≤ (0 : Int)) ∧
    ((0 : Int) < (2 : Int) →
      WaitGroup.wait_to_start ⟨2, -1, none, 0⟩ 0 5 =
        .suspended ⟨2, 0, some 5, 1⟩ ⟨0, 1⟩) ∧
    (∀ wg2 f2, WaitGroup.wait_to_start ⟨2, -1, none, 0⟩ 0 5 ≠ .earlyReady wg2 f2) :=
  wait_to_false_iff_already_satisfied ⟨2, -1, none, 0⟩ 0 5 (by decide)

/-! ### Claim C9 — no qualifying decrement is permanently missed -/

/-- C9: for every `SeqCst` interleaving of a producer's `done` (subtract,
then load `waiting`) with the waiter's registration (store `waiting` via
`set_waker`, then re-check `left` in the second `_poll`), whenever the
decrement brings the counter at or below the registered target, either
the decrement observes the registration — its loaded `waiting` equals the
target and the post-decrement value is at or below it, which is exactly
the condition under which `done` invokes the resume callback — or the
registration's re-check load observes the already-applied decrement at or
below the target, which is exactly the condition under which the second
`_poll` completes the wait. -/
theorem no_qualifying_decrement_missed (l : List RaceEv)
    (hl : l ∈ raceInterleavings) (left0 count : Int) (target : Nat)
    (hcross : left0 - count ≤ (target : Int)) :
    (∃ wt, (raceRun count target ⟨left0, -1, none, none⟩ l).dObs = some wt ∧
      0 ≤ wt ∧ (raceRun count target ⟨left0, -1, none, none⟩ l).left ≤ wt) ∨
    (∃ lv, (raceRun count target ⟨left0, -1, none, none⟩ l).wObs = some lv ∧
      lv ≤ (target : Int)) := by
  have htn : (0 : Int) ≤ (target : Int) := Int.natCast_nonneg target
  simp only [raceInterleavings, List.mem_cons, List.not_mem_nil, or_false] at hl
  rcases hl with rfl | rfl | rfl | rfl | rfl | rfl
  · exact Or.inr ⟨left0 - count, by simp [raceRun, raceStep], hcross⟩
  · exact Or.inl ⟨(target : Int), by simp [raceRun, raceStep], htn,
      by simp [raceRun, raceStep]; omega⟩
  · exact Or.inl ⟨(target : Int), by simp [raceRun, raceStep], htn,
      by simp [raceRun, raceStep]; omega⟩
  · exact Or.inl ⟨(target : Int), by simp [raceRun, raceStep], htn,
      by simp [raceRun, raceStep]; omega⟩
  · exact Or.inl ⟨(target : Int), by simp [raceRun, raceStep], htn,
      by simp [raceRun, raceStep]; omega⟩
  · exact Or.inl ⟨(target : Int), by simp [raceRun, raceStep], htn,
      by simp [raceRun, raceStep]; omega⟩

/-- Witness for C9: counter 2, decrement of 2, target 0, producer fully
ahead of the waiter — the waiter's re-check observes the decrement. -/
theorem no_qualifying_decrement_missed_witness :
    (∃ wt, (raceRun 2 0 ⟨2, -1, none, none⟩
        [RaceEv.dSub, RaceEv.dLoadWaiting, RaceEv.wStoreWaiting, RaceEv.wLoadLeft]).dObs
          = some wt ∧
      0 ≤ wt ∧ (raceRun 2 0 ⟨2, -1, none, none⟩
        [RaceEv.dSub, RaceEv.dLoadWaiting, RaceEv.wStoreWaiting, RaceEv.wLoadLeft]).left ≤ wt) ∨
    (∃ lv, (raceRun 2 0 ⟨2, -1, none, none⟩
        [RaceEv.dSub, RaceEv.dLoadWaiting, RaceEv.wStoreWaiting, RaceEv.wLoadLeft]).wObs
          = some lv ∧
      lv ≤ ((0 : Nat) : Int)) :=
  no_qualifying_decrement_missed
    [RaceEv.dSub, RaceEv.dLoadWaiting, RaceEv.wStoreWaiting, RaceEv.wLoadLeft]
    (by decide) 2 2 0 (by decide)
